import Mathlib

/-!
Verification development for the trustpilot-scraper repository.

Shallow embedding of the scraper's core modules:
* `src/rate-limiter.ts` — `RateLimiter.retryWithBackoff` / `extractRetryAfter`
* `src/scraper-orchestrator.ts` — the `ScraperOrchestrator.scrape` loop
  (dedup, checkpointing, termination and error policy)
* `data-transformer.ts` — `DataTransformer.parseRating` / `sanitizeText`
* `content-extractor.ts` — the paragraph fallback of
  `ContentExtractor.extractField` for the required `text` field

Strings are modelled as `List Char` (JS strings); machine numbers as
`Nat`/`Int`/`ℚ` (no floating point is needed by the verified fragments:
ratings are exact decimal tokens, modelled in `ℚ`).

Effects are made explicit: a retried operation is a function from the
attempt index to an `Except` outcome, the scraping loop is driven by an
environment record describing what each page interaction yields, and
sleeps/exports are collected into traces.
-/

namespace Scraper

/-! ### JS string primitives -/

/-- The ECMAScript whitespace set used by `String.prototype.trim`
(ASCII whitespace, NBSP, BOM, and the Unicode space separators). -/
def isJsWs (c : Char) : Bool :=
  c = ' ' ∨ c = '\t' ∨ c = '\n' ∨ c = '\x0b' ∨ c = '\x0c' ∨ c = '\x0d' ∨
  c = '\u00A0' ∨ c = '\uFEFF' ∨ c = '\u1680' ∨
  ('\u2000' ≤ c ∧ c ≤ '\u200A') ∨
  c = '\u2028' ∨ c = '\u2029' ∨ c = '\u202F' ∨ c = '\u205F' ∨ c = '\u3000'

/-- JS `String.prototype.trim`: strip leading and trailing whitespace. -/
def jsTrim (l : List Char) : List Char :=
  ((l.dropWhile isJsWs).reverse.dropWhile isJsWs).reverse

/-- JS `String.prototype.includes(pat)`: substring test. -/
def jsIncludes (l : List Char) (pat : List Char) : Bool :=
  if pat.isPrefixOf l then true
  else
    match l with
    | [] => false
    | _ :: rest => jsIncludes rest pat

/-- JS `String.prototype.replace(pat, repl)` with a string pattern:
replace the first occurrence of `pat`, or return the string unchanged
when `pat` does not occur. -/
def jsReplaceFirst : List Char → List Char → List Char → List Char
  | [], pat, repl => if pat.isPrefixOf [] then repl else []
  | c :: rest, pat, repl =>
    if pat.isPrefixOf (c :: rest) then repl ++ (c :: rest).drop pat.length
    else c :: jsReplaceFirst rest pat repl

/-- Numeric value of a digit string (most significant digit first). -/
def digitsVal (l : List Char) : Nat :=
  l.foldl (fun a c => a * 10 + (c.toNat - '0'.toNat)) 0

/-- JS `parseInt(s, 10)`: skip leading whitespace, accept an optional
sign, then a maximal run of decimal digits; `none` models `NaN`. -/
def parseIntJS (s : List Char) : Option Int :=
  let l := s.dropWhile isJsWs
  match l with
  | '-' :: rest =>
    let ds := rest.takeWhile Char.isDigit
    if ds.isEmpty then none else some (-(digitsVal ds : Int))
  | '+' :: rest =>
    let ds := rest.takeWhile Char.isDigit
    if ds.isEmpty then none else some (digitsVal ds : Int)
  | _ =>
    let ds := l.takeWhile Char.isDigit
    if ds.isEmpty then none else some (digitsVal ds : Int)

/-! ### RateLimiter (`src/rate-limiter.ts`) -/

/-- The `error.response` shape inspected by `extractRetryAfter`:
an HTTP status and the optional `retry-after` header value. -/
structure HttpResponse where
  status : Nat
  retryAfterHeader : Option (List Char)
deriving DecidableEq

/-- The error values flowing through `retryWithBackoff`:
`message`, an optional top-level `status` field, and an optional
`response` object. -/
structure ScrapeError where
  message : List Char
  status : Option Nat := none
  response : Option HttpResponse := none
deriving DecidableEq

/-- First branch of `extractRetryAfter` (lines 92–102): a parseable
`retry-after` header on a status-429 response.  JS truthiness: an empty
header string is falsy and is skipped; an unparseable header falls
through to the later checks. -/
def headerHint (e : ScrapeError) : Option Int :=
  match e.response with
  | some r =>
    if r.status = 429 then
      match r.retryAfterHeader with
      | some h => if h.isEmpty then none else parseIntJS h
      | none => none
    else none
  | none => none

/-- Function `RateLimiter.extractRetryAfter` (lines 90–111): a parseable header
hint wins; otherwise a message containing `'429'` or a top-level
`status === 429` yields the fixed 60-second default; otherwise `none`. -/
def extractRetryAfter (e : ScrapeError) : Option Int :=
  match headerHint e with
  | some n => some n
  | none =>
    if jsIncludes e.message ['4', '2', '9'] ∨ e.status = some 429 then some 60
    else none

/-- Record `RetryConfig` from `src/rate-limiter.ts`. -/
structure RetryConfig where
  maxRetries : Nat
  baseDelay : Nat
  maxDelay : Nat

/-- The default config `{maxRetries: 3, baseDelay: 1000, maxDelay: 8000}`. -/
def defaultRetryConfig : RetryConfig := ⟨3, 1000, 8000⟩

/-- The milliseconds slept after one failed attempt (lines 65–78):
`retryAfter * 1000` when a hint is present, otherwise
`min(baseDelay * 2^attempt, maxDelay)`. -/
def sleepFor (cfg : RetryConfig) (e : ScrapeError) (attempt : Nat) : Int :=
  match extractRetryAfter e with
  | some n => n * 1000
  | none => (min (cfg.baseDelay * 2 ^ attempt) cfg.maxDelay : Nat)

/-- The retry loop of `retryWithBackoff` (lines 52–82).  `op` gives the
outcome of the invocation at each attempt index; `fuel` counts the
remaining retries (`cfg.maxRetries - attempt`, so `fuel = 0` is the
`attempt === maxRetries` break).  Returns the sleeps performed (in ms,
in order) and the final outcome; a thrown `Except.error` is the
re-raised last failure. -/
def retryAux {α : Type} (cfg : RetryConfig) (op : Nat → Except ScrapeError α) :
    Nat → Nat → List Int × Except ScrapeError α
  | attempt, 0 =>
    match op attempt with
    | Except.ok v => ([], Except.ok v)
    | Except.error e => ([], Except.error e)
  | attempt, fuel' + 1 =>
    match op attempt with
    | Except.ok v => ([], Except.ok v)
    | Except.error e =>
      let r := retryAux cfg op (attempt + 1) fuel'
      (sleepFor cfg e attempt :: r.1, r.2)

/-- Function `RateLimiter.retryWithBackoff(operation, config)` (lines 44–83). -/
def retryWithBackoff {α : Type} (op : Nat → Except ScrapeError α)
    (cfg : RetryConfig) : List Int × Except ScrapeError α :=
  retryAux cfg op 0 cfg.maxRetries

/-! ### DataTransformer (`data-transformer.ts`) -/

/-- Stage `.replace(/\r\n/g, '\n')`: every CRLF pair becomes a single LF. -/
def replaceCRLF : List Char → List Char
  | [] => []
  | [c] => [c]
  | a :: b :: rest =>
    if a = '\x0d' ∧ b = '\n' then '\n' :: replaceCRLF rest
    else a :: replaceCRLF (b :: rest)

/-- Stage `.replace(/\r/g, '\n')`: every remaining CR becomes LF. -/
def replaceCR (l : List Char) : List Char :=
  l.map fun c => if c = '\x0d' then '\n' else c

/-- Worker for `.replace(/\n{3,}/g, '\n\n')`.  `k` counts the newlines
of the current run already emitted-or-seen; the regex rewrites each
maximal run of three or more `\n` to exactly two, which is the same as
keeping only the first two newlines of every maximal run. -/
def collapseNLAux : Nat → List Char → List Char
  | _, [] => []
  | k, c :: rest =>
    if c = '\n' then
      if 2 ≤ k then collapseNLAux (k + 1) rest
      else '\n' :: collapseNLAux (k + 1) rest
    else c :: collapseNLAux 0 rest

/-- Stage `.replace(/\n{3,}/g, '\n\n')`. -/
def collapseNL (l : List Char) : List Char := collapseNLAux 0 l

/-- Function `DataTransformer.sanitizeText` (lines 153–163): the empty string is
falsy and short-circuits; otherwise trim, then CRLF→LF, then CR→LF,
then collapse runs of 3+ newlines to two. -/
def sanitizeText (l : List Char) : List Char :=
  if l.isEmpty then []
  else collapseNL (replaceCR (replaceCRLF (jsTrim l)))

/-- Test returning `true` iff the string contains three consecutive LF
characters; a run of 3 or more newlines contains such a triple at its
start, so this decides "has a run of 3+ consecutive LFs". -/
def hasTripleNL : List Char → Bool
  | [] => false
  | c :: rest =>
    decide ((c :: rest).take 3 = ['\n', '\n', '\n']) || hasTripleNL rest

/-- The first match of the regex `/(\d+(?:\.\d+)?)/`: scan to the first
digit, take the maximal digit run, then an optional fraction (a dot
followed by at least one digit, taking the maximal digit run).
Returns `(integer part, fraction part)`. -/
def firstNumToken : List Char → Option (List Char × List Char)
  | [] => none
  | c :: rest =>
    if c.isDigit then
      let ip := (c :: rest).takeWhile Char.isDigit
      match (c :: rest).dropWhile Char.isDigit with
      | '.' :: d :: ds =>
        if d.isDigit then some (ip, (d :: ds).takeWhile Char.isDigit)
        else some (ip, [])
      | _ => some (ip, [])
    else firstNumToken rest

/-- Exact numeric value of a matched token `ip.fp` (JS `parseFloat` on
the matched digits; the token's value is an exact decimal, modelled in
`ℚ` with no rounding). -/
def tokenValue (ip fp : List Char) : ℚ :=
  (digitsVal ip : ℚ) + (digitsVal fp : ℚ) / (10 : ℚ) ^ fp.length

/-- Function `DataTransformer.parseRating` (lines 171–193): empty string is
falsy → 0; otherwise match the first numeric token of the trimmed
string and accept its exact value iff it lies in `[1, 5]`, else 0. -/
def parseRating (l : List Char) : ℚ :=
  if l.isEmpty then 0
  else
    match firstNumToken (jsTrim l) with
    | some (ip, fp) =>
      if 1 ≤ tokenValue ip fp ∧ tokenValue ip fp ≤ 5 then tokenValue ip fp
      else 0
    | none => 0

/-! ### ContentExtractor text fallback (`content-extractor.ts`) -/

/-- A rendered review container, as seen by the fallback of
`ContentExtractor.extractField` for the `text` field: the text contents
of its `<p>` descendants in document order, and the container's whole
`textContent`. -/
structure Container where
  paragraphs : List (List Char)
  allText : List Char

/-- The per-paragraph test `if (text && text.length > 20)` on trimmed
text (JS truthiness: nonempty). -/
def longEnough (t : List Char) : Bool :=
  !t.isEmpty && decide (20 < t.length)

/-- JS `String.prototype.split('\n')`. -/
def splitNLAux : List Char → List Char → List (List Char)
  | acc, [] => [acc.reverse]
  | acc, c :: rest =>
    if c = '\n' then acc.reverse :: splitNLAux [] rest
    else splitNLAux (c :: acc) rest

/-- JS `String.prototype.split('\n')`. -/
def splitNL (l : List Char) : List (List Char) := splitNLAux [] l

/-- Model of `lines.reduce((a, b) => a.length > b.length ? a : b)`: the longest
element, later elements winning ties. -/
def longestOf (x : List Char) (xs : List (List Char)) : List Char :=
  xs.foldl (fun a b => if a.length > b.length then a else b) x

/-- The last-resort branch of `ContentExtractor.extractField`
(lines 327–351), reached for the required `text` field when every
field-specific selector failed: return the first `<p>` whose trimmed
text is nonempty and longer than 20 characters; failing that, split the
container's trimmed `textContent` on newlines, keep the lines longer
than 20 characters after trimming, and return the longest; `none`
models the `Required field "text" not found` throw. -/
def extractTextFallback (c : Container) : Option (List Char) :=
  match (c.paragraphs.map jsTrim).find? longEnough with
  | some t => some t
  | none =>
    match ((splitNL (jsTrim c.allText)).map jsTrim).filter
        (fun l => decide (20 < l.length)) with
    | [] => none
    | x :: xs => some (longestOf x xs)

/-! ### Orchestrator (`src/scraper-orchestrator.ts`) -/

/-- Record `ReviewElement` from `content-extractor.ts`: raw extracted fields. -/
structure RawReview where
  rating : List Char
  text : List Char
  date : List Char
  reviewerName : List Char
  title : Option (List Char) := none
  verified : Option Bool := none

/-- Record `TransformedReview` from `data-transformer.ts`. -/
structure TransformedReview where
  rating : ℚ
  text : List Char
  date : List Char
  reviewerName : List Char
  title : List Char
  verified : Bool
deriving DecidableEq

/-- The dedup key built at line 149: the template-literal join
`text + '|' + reviewerName + '|' + date`. -/
def reviewKey (r : TransformedReview) : List Char :=
  r.text ++ '|' :: r.reviewerName ++ '|' :: r.date

/-- The dedup filter of lines 148–155: a stateful `Array.filter` over
the page's transformed reviews; a review is kept iff its key is not in
the `seenReviews` set, and its key is added to the set when kept.  The
JS `Set` is modelled by a list with `∈` as membership.  Returns the
grown set and the kept reviews in order. -/
def dedupFilter (seen : List (List Char)) :
    List TransformedReview → List (List Char) × List TransformedReview
  | [] => (seen, [])
  | r :: rest =>
    if reviewKey r ∈ seen then dedupFilter seen rest
    else
      let p := dedupFilter (reviewKey r :: seen) rest
      (p.1, r :: p.2)

/-- Result of `PageNavigator.clickNextPage`. -/
structure ClickResult where
  success : Bool
  hasNextPage : Bool
  error : Option (List Char)
deriving DecidableEq

/-- What the environment yields for one loop iteration: the outcome of
extraction (`Except.error` models any exception thrown inside the
iteration's `try` block up to and including `extractor.extractReviews`),
whether the checkpoint export succeeds, the `detectNextPageButton`
answer, and the `clickNextPage` result. -/
structure PageEnv where
  extract : Except (List Char) (List RawReview)
  checkpointOk : Bool
  detectNext : Bool
  click : ClickResult

/-- One call to `csvExporter.export`: target filename, the records
handed over, and whether the call succeeded. -/
structure ExportEvent where
  filename : List Char
  records : List TransformedReview
  ok : Bool
deriving DecidableEq

/-- The configuration fields the scrape loop reads.  `maxPages` is kept
finite (the `Infinity` default is not exercised by any claim). -/
structure OrchestratorConfig where
  outputFilename : List Char
  maxPages : Nat

/-- Line 173: `outputFilename.replace('.csv', `_checkpoint_page${N}.csv`)`
— replaces the **first** occurrence of `.csv`, or nothing when absent. -/
def checkpointName (output : List Char) (pagesProcessed : Nat) : List Char :=
  jsReplaceFirst output ".csv".data
    ("_checkpoint_page".data ++ (toString pagesProcessed).data ++ ".csv".data)

/-- Lines 218: the message pushed by the page-level `catch`. -/
def pageErrorMsg (currentPage : Nat) (m : List Char) : List Char :=
  "Error processing page ".data ++ (toString currentPage).data ++ ": ".data ++ m

/-- Line 203: the message pushed when `clickNextPage` fails. -/
def paginationErrorMsg (currentPage : Nat) (m : List Char) : List Char :=
  "Pagination failed on page ".data ++ (toString currentPage).data ++ ": ".data ++ m

/-- Accumulated loop state on exit: collected reviews, pages processed,
non-fatal error messages, checkpoint export calls, and the seen-key set. -/
structure LoopResult where
  reviews : List TransformedReview
  pagesProcessed : Nat
  errors : List (List Char)
  checkpoints : List ExportEvent
  seen : List (List Char)
deriving DecidableEq

/-- The `while (hasNextPage && currentPage <= maxPages)` loop of
`ScraperOrchestrator.scrape` (lines 130–223).  The transformer is an
opaque parameter `tf` (its internals are verified separately); `env`
describes each page's interactions, indexed by `currentPage` (distinct
across iterations, since every iteration either exits the loop or
advances `currentPage`).  `fuel` is structural: every iteration either
exits or increments `currentPage`, so `cfg.maxPages + 1 - currentPage`
bounds the remaining iterations; the fuel-0 branch returns the same
exit state as a false guard and is unreachable whenever
`fuel ≥ cfg.maxPages + 1 - currentPage`, which `scrape` establishes. -/
def scrapeLoop (tf : RawReview → TransformedReview) (cfg : OrchestratorConfig)
    (env : Nat → PageEnv) :
    Nat → Nat → Bool → List (List Char) → List TransformedReview → Nat →
    List (List Char) → List ExportEvent → LoopResult
  | 0, _, _, seen, acc, pp, errors, cks => ⟨acc, pp, errors, cks, seen⟩
  | fuel + 1, currentPage, hasNext, seen, acc, pp, errors, cks =>
    if hasNext ∧ currentPage ≤ cfg.maxPages then
      match (env currentPage).extract with
      | Except.error m =>
        -- catch (lines 216–222): record the message, treat hasNextPage=false
        ⟨acc, pp, errors ++ [pageErrorMsg currentPage m], cks, seen⟩
      | Except.ok raws =>
        let p := dedupFilter seen (raws.map tf)
        let acc' := acc ++ p.2
        let pp' := pp + 1
        let cks' :=
          if pp' % 50 = 0 then
            cks ++ [⟨checkpointName cfg.outputFilename pp', acc',
                     (env currentPage).checkpointOk⟩]
          else cks
        if cfg.maxPages ≤ currentPage then
          -- line 184: reached the max pages limit — break
          ⟨acc', pp', errors, cks', p.1⟩
        else if (env currentPage).detectNext then
          let cr := (env currentPage).click
          if cr.success then
            scrapeLoop tf cfg env fuel (currentPage + 1) cr.hasNextPage p.1
              acc' pp' errors cks'
          else
            ⟨acc', pp',
             errors ++ [paginationErrorMsg currentPage
               (cr.error.getD "unknown error".data)], cks', p.1⟩
        else
          -- line 213: no more pages
          ⟨acc', pp', errors, cks', p.1⟩
    else ⟨acc, pp, errors, cks, seen⟩

/-- Environment for a whole `scrape()` run: a throw during
initialization (`initialize`/`createPage`/`waitForNetworkIdle`), the
`navigateToURL` verdict, the per-page environments, and whether the two
possible primary-sink export calls (line 227, and line 260 inside the
`catch`) throw. -/
structure ScrapeEnv where
  initThrow : Option (List Char)
  navOk : Bool
  pages : Nat → PageEnv
  finalExportThrow : Option (List Char)
  rescueExportThrow : Option (List Char)

/-- How a `scrape()` call ends: a returned `ScrapingResult` (its
review/page counts and error list) or a raised error. -/
inductive RunOutcome where
  | returned (totalReviews pagesProcessed : Nat) (errors : List (List Char))
  | threw (msg : List Char) (errors : List (List Char))
deriving DecidableEq

/-- Observable trace of one `scrape()` call: primary-sink export calls
(in order), checkpoint export calls, and the outcome. -/
structure RunTrace where
  exports : List ExportEvent
  checkpoints : List ExportEvent
  outcome : RunOutcome
deriving DecidableEq

/-- The message of the line-99 throw. -/
def navFailMsg : List Char := "Failed to navigate to target URL".data

/-- Function `ScraperOrchestrator.scrape` (lines 68–297): initialization and
navigation, the loop, the final export (line 227), and the critical
`catch` (lines 251–288), which records the error, re-exports partial
data only when at least one review was collected, **returns normally**
when that rescue export succeeds, and re-raises otherwise. -/
def scrape (tf : RawReview → TransformedReview) (cfg : OrchestratorConfig)
    (env : ScrapeEnv) : RunTrace :=
  match env.initThrow with
  | some m => ⟨[], [], RunOutcome.threw m [m]⟩
  | none =>
    if env.navOk then
      let L := scrapeLoop tf cfg env.pages cfg.maxPages 1 true [] [] 0 [] []
      match env.finalExportThrow with
      | none =>
        ⟨[⟨cfg.outputFilename, L.reviews, true⟩], L.checkpoints,
         RunOutcome.returned L.reviews.length L.pagesProcessed L.errors⟩
      | some m =>
        if 0 < L.reviews.length then
          match env.rescueExportThrow with
          | none =>
            ⟨[⟨cfg.outputFilename, L.reviews, false⟩,
              ⟨cfg.outputFilename, L.reviews, true⟩], L.checkpoints,
             RunOutcome.returned L.reviews.length L.pagesProcessed
               (L.errors ++ [m])⟩
          | some m2 =>
            ⟨[⟨cfg.outputFilename, L.reviews, false⟩,
              ⟨cfg.outputFilename, L.reviews, false⟩], L.checkpoints,
             RunOutcome.threw m
               (L.errors ++ [m, "Export failed: ".data ++ m2])⟩
        else
          ⟨[⟨cfg.outputFilename, L.reviews, false⟩], L.checkpoints,
           RunOutcome.threw m (L.errors ++ [m])⟩
    else ⟨[], [], RunOutcome.threw navFailMsg [navFailMsg]⟩

/-- The loop result of a full run (the `let L` of `scrape`): fuel
`cfg.maxPages`, starting at page 1 with empty state. -/
def loopOf (tf : RawReview → TransformedReview) (cfg : OrchestratorConfig)
    (env : ScrapeEnv) : LoopResult :=
  scrapeLoop tf cfg env.pages cfg.maxPages 1 true [] [] 0 [] []

/-! ## Proofs -/

/-! ### RateLimiter: retry schedule -/

/-- Unfolding: a successful attempt ends the loop with no sleep. -/
theorem retryAux_ok {α : Type} (cfg : RetryConfig)
    (op : Nat → Except ScrapeError α) (a fuel : Nat) (v : α)
    (h : op a = Except.ok v) :
    retryAux cfg op a fuel = ([], Except.ok v) := by
  cases fuel <;> simp [retryAux, h]

/-- Unfolding: a failed attempt with fuel left sleeps `sleepFor` and
continues at the next attempt index. -/
theorem retryAux_err_succ {α : Type} (cfg : RetryConfig)
    (op : Nat → Except ScrapeError α) (a f : Nat) (e : ScrapeError)
    (h : op a = Except.error e) :
    retryAux cfg op a (f + 1)
      = (sleepFor cfg e a :: (retryAux cfg op (a + 1) f).1,
         (retryAux cfg op (a + 1) f).2) := by
  simp [retryAux, h]

/-- Shape of a run whose operation fails at attempts `< k` and succeeds
at attempt `k`: one sleep per failed attempt, each computed by
`sleepFor` at that attempt's index. -/
theorem retryAux_stops (cfg : RetryConfig) (e : Nat → ScrapeError) {α : Type}
    (v : α) (k : Nat) :
    ∀ fuel a, k ≤ a + fuel →
      retryAux cfg (fun i => if i < k then Except.error (e i) else Except.ok v)
          a fuel
        = (((List.range' a (k - a)).map fun i => sleepFor cfg (e i) i),
           Except.ok v) := by
  intro fuel
  induction fuel with
  | zero =>
    intro a ha
    have hk : ¬ a < k := by omega
    have h0 : k - a = 0 := by omega
    simp [retryAux, hk, h0]
  | succ f ih =>
    intro a ha
    by_cases h : a < k
    · have hk : k - a = (k - (a + 1)) + 1 := by omega
      simp only [retryAux, if_pos h]
      rw [ih (a + 1) (by omega)]
      rw [hk, List.range'_succ]
      simp
    · have h0 : k - a = 0 := by omega
      simp [retryAux, h, h0]

/-- Shape of a run whose operation fails at every attempt: the retry
budget is exhausted and the last failure is re-raised. -/
theorem retryAux_allFail (cfg : RetryConfig) (e : Nat → ScrapeError) {α : Type} :
    ∀ fuel a,
      retryAux cfg (fun i => (Except.error (e i) : Except ScrapeError α)) a fuel
        = (((List.range' a fuel).map fun i => sleepFor cfg (e i) i),
           Except.error (e (a + fuel))) := by
  intro fuel
  induction fuel with
  | zero => intro a; simp [retryAux]
  | succ f ih =>
    intro a
    simp only [retryAux]
    rw [ih (a + 1), List.range'_succ]
    have h1 : a + 1 + f = a + (f + 1) := by omega
    simp [h1]

/-- C4 (counterexample): under `{maxRetries: 3, baseDelay: 1000,
maxDelay: 8000}`, an operation failing three consecutive times with
hint-less transient errors and then succeeding is indeed returned
successfully, but the backoff sleeps are 1000, 2000 and 4000 ms —
a total of 7000 ms, not the claimed 1000+2000 ms. -/
theorem c4_total_sleep_counterexample :
    (retryWithBackoff
        (fun i => if i < 3 then Except.error ⟨"timeout".data, none, none⟩
                  else Except.ok 42)
        defaultRetryConfig).2 = Except.ok 42
  ∧ (retryWithBackoff
        (fun i => if i < 3 then Except.error ⟨"timeout".data, none, none⟩
                  else Except.ok 42)
        defaultRetryConfig).1 = [1000, 2000, 4000]
  ∧ (1000 + 2000 + 4000 : Int) ≠ 1000 + 2000 :=
  ⟨rfl, by decide, by decide⟩

/-- C4 (amended): under `{maxRetries: 3, baseDelay: 1000, maxDelay: 8000}`,
an operation failing three consecutive times with hint-less errors and
then succeeding is returned successfully on the 3rd retry, with backoff
sleeps of 1000+2000+4000 ms; a 4th consecutive failure makes
`retryWithBackoff` re-raise that last failure unmodified (after the
same three sleeps). -/
theorem c4_retry_backoff (e : Nat → ScrapeError) {α : Type} (v : α)
    (h : ∀ i, i < 3 → extractRetryAfter (e i) = none) :
    retryWithBackoff
        (fun i => if i < 3 then Except.error (e i) else Except.ok v)
        defaultRetryConfig
      = ([1000, 2000, 4000], Except.ok v)
  ∧ retryWithBackoff (fun i => (Except.error (e i) : Except ScrapeError α))
        defaultRetryConfig
      = ([1000, 2000, 4000], Except.error (e 3)) := by
  have hs : ∀ i, i < 3 →
      sleepFor defaultRetryConfig (e i) i
        = ((min (1000 * 2 ^ i) 8000 : Nat) : Int) := by
    intro i hi
    simp [sleepFor, h i hi, defaultRetryConfig]
  constructor
  · have hr := retryAux_stops defaultRetryConfig e v 3 3 0 (by omega)
    unfold retryWithBackoff
    rw [show defaultRetryConfig.maxRetries = 3 from rfl, hr]
    have : (List.range' 0 (3 - 0)) = [0, 1, 2] := by decide
    rw [this]
    simp only [List.map_cons, List.map_nil]
    rw [hs 0 (by omega), hs 1 (by omega), hs 2 (by omega)]
    norm_num
  · have hr := retryAux_allFail defaultRetryConfig e (α := α) 3 0
    unfold retryWithBackoff
    rw [show defaultRetryConfig.maxRetries = 3 from rfl, hr]
    have : (List.range' 0 3) = [0, 1, 2] := by decide
    rw [this]
    simp only [List.map_cons, List.map_nil]
    rw [hs 0 (by omega), hs 1 (by omega), hs 2 (by omega)]
    norm_num

/-- Witness for `c4_retry_backoff` at a concrete hint-less error. -/
theorem c4_retry_backoff_witness :
    (retryWithBackoff
        (fun i => if i < 3
                  then Except.error (⟨"timeout".data, none, none⟩ : ScrapeError)
                  else Except.ok 42)
        defaultRetryConfig
      = ([1000, 2000, 4000], Except.ok 42))
  ∧ retryWithBackoff
        (fun i => (Except.error
          ((fun _ : Nat => (⟨"timeout".data, none, none⟩ : ScrapeError)) i)
          : Except ScrapeError Nat))
        defaultRetryConfig
      = ([1000, 2000, 4000],
         Except.error (⟨"timeout".data, none, none⟩ : ScrapeError)) :=
  c4_retry_backoff (fun _ => ⟨"timeout".data, none, none⟩) 42
    (fun _ _ => by
      show extractRetryAfter ⟨"timeout".data, none, none⟩ = none
      decide)

/-- C5 (counterexample): a hinted (429 + retry-after 30s) first failure
followed by a hint-less failure sleeps 30000 then 2000 ms; without the
hinted failure the same hint-less failure sleeps 1000 ms.  The
exponential delay applied to the later hint-less failure is therefore
**not** the same as if the hinted failure had not occurred: the hinted
failure consumed an attempt index. -/
theorem c5_hint_consumes_attempt_counterexample :
    (retryWithBackoff
        (fun i =>
          if i = 0 then
            Except.error ⟨"rate limited".data, none, some ⟨429, some "30".data⟩⟩
          else if i = 1 then Except.error ⟨"connection reset".data, none, none⟩
          else Except.ok 1)
        defaultRetryConfig).1 = [30000, 2000]
  ∧ (retryWithBackoff
        (fun i =>
          if i = 0 then Except.error ⟨"connection reset".data, none, none⟩
          else Except.ok 1)
        defaultRetryConfig).1 = [1000]
  ∧ (2000 : Int) ≠ 1000 :=
  ⟨by decide, by decide, by decide⟩

/-- C5 (amended): when a caught failure carries a server wait hint, the
scheduler sleeps exactly `hint × 1000` ms — the exponential formula and
the `maxDelay` clamp are not applied to that sleep — but the hinted
failure still advances the shared attempt counter and consumes retry
budget: in a run whose first `k` attempts fail, the `i`-th failure
(0-based, counting hinted and hint-less failures alike) sleeps
`hint × 1000` when hinted and `min(baseDelay · 2^i, maxDelay)` when
hint-less. -/
theorem c5_hint_schedule (cfg : RetryConfig) (e : Nat → ScrapeError)
    {α : Type} (v : α) (k : Nat) (hk : k ≤ cfg.maxRetries) :
    retryWithBackoff
        (fun i => if i < k then Except.error (e i) else Except.ok v) cfg
      = (((List.range k).map fun i => sleepFor cfg (e i) i), Except.ok v)
  ∧ (∀ er n i, extractRetryAfter er = some n → sleepFor cfg er i = n * 1000)
  ∧ (∀ er i, extractRetryAfter er = none →
       sleepFor cfg er i = ((min (cfg.baseDelay * 2 ^ i) cfg.maxDelay : Nat) : Int)) := by
  refine ⟨?_, ?_, ?_⟩
  · have hr := retryAux_stops cfg e v k cfg.maxRetries 0 (by omega)
    unfold retryWithBackoff
    rw [hr, List.range_eq_range']
    simp
  · intro er n i hn
    simp [sleepFor, hn]
  · intro er i hn
    simp [sleepFor, hn]

/-- Witness for `c5_hint_schedule`: hinted then hint-less failure under
the default config. -/
theorem c5_hint_schedule_witness :
    (retryWithBackoff
        (fun i =>
          if i < 2 then
            Except.error
              ((fun j : Nat =>
                 if j = 0 then
                   (⟨"rate limited".data, none,
                     some ⟨429, some "30".data⟩⟩ : ScrapeError)
                 else ⟨"connection reset".data, none, none⟩) i)
          else Except.ok 1)
        defaultRetryConfig).1 = [30000, 2000] := by
  have h := (c5_hint_schedule defaultRetryConfig
    (fun j => if j = 0 then
        ⟨"rate limited".data, none, some ⟨429, some "30".data⟩⟩
      else ⟨"connection reset".data, none, none⟩)
    1 2 (by decide)).1
  rw [congrArg Prod.fst h]
  decide

/-- C10 (confirmed): a failure whose message contains `'429'` (or whose
top-level `status` field is 429) but which carries no parseable
`retry-after` header makes the retry sleep the fixed default of
60 seconds (60000 ms) before the next attempt; the sleep is
`60 × 1000` for **every** config, so it is not clamped to `maxDelay`. -/
theorem c10_fixed_60s_default (e : ScrapeError)
    (h1 : jsIncludes e.message ['4', '2', '9'] = true ∨ e.status = some 429)
    (h2 : headerHint e = none) :
    extractRetryAfter e = some 60
  ∧ (∀ (cfg : RetryConfig) {α : Type} (v : α), 1 ≤ cfg.maxRetries →
      retryWithBackoff (fun i => if i = 0 then Except.error e else Except.ok v)
          cfg
        = ([60000], Except.ok v))
  ∧ (∀ cfg : RetryConfig, sleepFor cfg e 0 = 60000) := by
  have hex : extractRetryAfter e = some 60 := by
    unfold extractRetryAfter
    rw [h2]
    rcases h1 with h | h
    · simp [h]
    · simp [h]
  have hsleep : ∀ cfg : RetryConfig, sleepFor cfg e 0 = 60000 := by
    intro cfg
    simp [sleepFor, hex]
  refine ⟨hex, ?_, hsleep⟩
  intro cfg α v hm
  obtain ⟨f, hf⟩ := Nat.exists_eq_add_of_le hm
  have hf1 : cfg.maxRetries = f + 1 := by omega
  unfold retryWithBackoff
  rw [hf1,
    retryAux_err_succ cfg _ 0 f e (by simp),
    retryAux_ok cfg _ 1 f v (by simp)]
  simp [hsleep cfg]

/-- Witness for `c10_fixed_60s_default`: a bare `429` message under the
default config, whose `maxDelay` of 8000 ms is exceeded by the sleep. -/
theorem c10_fixed_60s_default_witness :
    extractRetryAfter ⟨"HTTP 429 Too Many Requests".data, none, none⟩ = some 60
  ∧ retryWithBackoff
        (fun i => if i = 0
          then Except.error
            (⟨"HTTP 429 Too Many Requests".data, none, none⟩ : ScrapeError)
          else Except.ok 7)
        defaultRetryConfig
      = ([60000], Except.ok 7)
  ∧ defaultRetryConfig.maxDelay < 60000 :=
  ⟨(c10_fixed_60s_default ⟨"HTTP 429 Too Many Requests".data, none, none⟩
      (Or.inl (by decide)) (by decide)).1,
   (c10_fixed_60s_default ⟨"HTTP 429 Too Many Requests".data, none, none⟩
      (Or.inl (by decide)) (by decide)).2.1 defaultRetryConfig 7 (by decide),
   by decide⟩


/-! ### DataTransformer: parseRating (C7) -/

/-- C7 (confirmed): `parseRating` returns the exact value of the first
numeric token of the (trimmed) input — no rounding, the token's decimal
value in `ℚ` — whenever that value lies in `[1, 5]`, and returns 0 when
the input has no numeric token or the first token's value lies outside
`[1, 5]`. -/
theorem c7_parse_rating (s : List Char) :
    (firstNumToken (jsTrim s) = none → parseRating s = 0)
  ∧ (∀ ip fp, firstNumToken (jsTrim s) = some (ip, fp) →
      ((1 ≤ tokenValue ip fp ∧ tokenValue ip fp ≤ 5) →
        parseRating s = tokenValue ip fp)
    ∧ (¬ (1 ≤ tokenValue ip fp ∧ tokenValue ip fp ≤ 5) →
        parseRating s = 0)) := by
  by_cases hs : s.isEmpty
  · have hnil : s = [] := List.isEmpty_iff.mp hs
    subst hnil
    refine ⟨fun _ => by simp [parseRating], ?_⟩
    intro ip fp htok
    have : jsTrim ([] : List Char) = [] := by decide
    rw [this] at htok
    simp [firstNumToken] at htok
  · constructor
    · intro hnone
      simp [parseRating, hs, hnone]
    · intro ip fp htok
      constructor
      · intro hin
        simp [parseRating, hs, htok, hin]
      · intro hout
        simp [parseRating, hs, htok, hout]

/-- Witness for `c7_parse_rating`: `"Rated 4.5 out of 5"` parses to the
exact decimal 4.5 = 9/2, and `"6 stars"` parses to 0. -/
theorem c7_parse_rating_witness :
    parseRating "Rated 4.5 out of 5".data = 9 / 2
  ∧ parseRating "6 stars".data = 0 := by
  constructor
  · have h := (c7_parse_rating "Rated 4.5 out of 5".data).2 ['4'] ['5']
      (by decide)
    have hval : tokenValue ['4'] ['5'] = 9 / 2 := by
      simp [tokenValue, digitsVal]
      norm_num
    rw [hval] at h
    exact (h.1 (by norm_num))
  · have h := (c7_parse_rating "6 stars".data).2 ['6'] [] (by decide)
    have hval : tokenValue ['6'] [] = 6 := by
      simp [tokenValue, digitsVal]
    rw [hval] at h
    exact (h.2 (by norm_num))


/-! ### DataTransformer: sanitizeText (C8) -/

/-- Cons preserves a known last element. -/
theorem getLast?_cons_keep {α : Type} (a : α) {xs : List α} {c : α}
    (h : xs.getLast? = some c) : (a :: xs).getLast? = some c := by
  cases xs with
  | nil => simp at h
  | cons x t => rw [List.getLast?_cons_cons]; exact h

/-- The head surviving `dropWhile p` does not satisfy `p`. -/
theorem head?_dropWhile_false {α : Type} (p : α → Bool) (l : List α) (c : α)
    (h : (l.dropWhile p).head? = some c) : p c = false := by
  have hne : l.dropWhile p ≠ [] := by
    intro hx
    rw [hx] at h
    simp at h
  have hp := List.head_dropWhile_not p l hne
  rw [List.head?_eq_head hne] at h
  have : (l.dropWhile p).head hne = c := by injection h
  rwa [this] at hp

/-- A nonempty `dropWhile` keeps the list's last element. -/
theorem getLast?_dropWhile {α : Type} (p : α → Bool) (l : List α)
    (h : l.dropWhile p ≠ []) : (l.dropWhile p).getLast? = l.getLast? := by
  obtain ⟨t, ht⟩ := List.dropWhile_suffix (l := l) p
  conv_rhs => rw [← ht]
  rw [List.getLast?_append]
  cases hx : (l.dropWhile p).getLast? with
  | none => exact absurd (List.getLast?_eq_none_iff.mp hx) h
  | some c => simp

/-- The first character of a trimmed string is not whitespace. -/
theorem jsTrim_head_not_ws (l : List Char) (c : Char)
    (h : (jsTrim l).head? = some c) : isJsWs c = false := by
  unfold jsTrim at h
  rw [List.head?_reverse] at h
  have hne : ((l.dropWhile isJsWs).reverse.dropWhile isJsWs) ≠ [] := by
    intro hx
    rw [hx] at h
    simp at h
  rw [getLast?_dropWhile isJsWs _ hne, List.getLast?_reverse] at h
  exact head?_dropWhile_false isJsWs l c h

/-- The last character of a trimmed string is not whitespace. -/
theorem jsTrim_getLast_not_ws (l : List Char) (c : Char)
    (h : (jsTrim l).getLast? = some c) : isJsWs c = false := by
  unfold jsTrim at h
  rw [List.getLast?_reverse] at h
  exact head?_dropWhile_false isJsWs _ c h

/-- A non-CR head survives the CRLF pass in place. -/
theorem replaceCRLF_head (a : Char) (l : List Char) (ha : a ≠ '\x0d') :
    (replaceCRLF (a :: l)).head? = some a := by
  cases l with
  | nil => simp [replaceCRLF]
  | cons b t =>
    simp only [replaceCRLF]
    rw [if_neg (fun hcon => ha hcon.1)]
    simp

/-- The CRLF pass keeps the last element of any string (a trailing LF
of a merged CRLF pair is itself that last element). -/
theorem replaceCRLF_getLast_aux :
    ∀ (n : Nat) (l : List Char), l.length ≤ n →
      ∀ c, (replaceCRLF (l ++ [c])).getLast? = some c := by
  intro n
  induction n with
  | zero =>
    intro l hl c
    have : l = [] := List.length_eq_zero.mp (by omega)
    subst this
    simp [replaceCRLF]
  | succ n ih =>
    intro l hl c
    match l with
    | [] => simp [replaceCRLF]
    | [a] =>
      by_cases h : a = '\x0d' ∧ c = '\n'
      · obtain ⟨h1, h2⟩ := h
        subst h1
        subst h2
        simp [replaceCRLF]
      · simp only [List.cons_append, List.nil_append, replaceCRLF, if_neg h]
        simp [replaceCRLF]
    | a :: b :: t =>
      simp only [List.cons_append, replaceCRLF]
      by_cases h : a = '\x0d' ∧ b = '\n'
      · rw [if_pos h]
        exact getLast?_cons_keep _
          (ih t (by simp at hl; omega) c)
      · rw [if_neg h]
        exact getLast?_cons_keep _
          (ih (b :: t) (by simp at hl ⊢; omega) c)

/-- The CRLF pass keeps the last element of any string. -/
theorem replaceCRLF_getLast (l : List Char) (c : Char) :
    (replaceCRLF (l ++ [c])).getLast? = some c :=
  replaceCRLF_getLast_aux l.length l le_rfl c

/-- After the CR pass, no CR remains. -/
theorem replaceCR_no_cr (l : List Char) : ∀ c ∈ replaceCR l, c ≠ '\x0d' := by
  intro c hc
  simp only [replaceCR, List.mem_map] at hc
  obtain ⟨a, _, hac⟩ := hc
  by_cases h : a = '\x0d'
  · rw [if_pos h] at hac
    rw [← hac]
    decide
  · rw [if_neg h] at hac
    rw [← hac]
    exact h

/-- A non-CR head survives the CR pass in place. -/
theorem replaceCR_head (a : Char) (l : List Char) (ha : a ≠ '\x0d') :
    (replaceCR (a :: l)).head? = some a := by
  simp [replaceCR, ha]

/-- A non-CR last element survives the CR pass in place. -/
theorem replaceCR_getLast (l : List Char) (c : Char) (hc : c ≠ '\x0d') :
    (replaceCR (l ++ [c])).getLast? = some c := by
  unfold replaceCR
  rw [List.map_append]
  simp [List.getLast?_concat, hc]

/-- Characters emitted by the newline collapse come from its input. -/
theorem collapseNLAux_mem :
    ∀ (l : List Char) (k : Nat) (c : Char), c ∈ collapseNLAux k l → c ∈ l := by
  intro l
  induction l with
  | nil => simp [collapseNLAux]
  | cons a t ih =>
    intro k c hc
    simp only [collapseNLAux] at hc
    by_cases ha : a = '\n'
    · rw [if_pos ha] at hc
      by_cases hk : 2 ≤ k
      · rw [if_pos hk] at hc
        exact List.mem_cons_of_mem a (ih _ _ hc)
      · rw [if_neg hk] at hc
        rcases List.mem_cons.mp hc with h | h
        · rw [h, ha]
          exact List.mem_cons_self _ _
        · exact List.mem_cons_of_mem a (ih _ _ h)
    · rw [if_neg ha] at hc
      rcases List.mem_cons.mp hc with h | h
      · rw [h]
        exact List.mem_cons_self a t
      · exact List.mem_cons_of_mem a (ih _ _ h)

/-- With two newlines of the current run already seen, the collapse
never emits a newline first. -/
theorem collapseNLAux_head_ne_nl :
    ∀ (l : List Char) (k : Nat), 2 ≤ k →
      ∀ c, (collapseNLAux k l).head? = some c → c ≠ '\n' := by
  intro l
  induction l with
  | nil =>
    intro k _ c h
    simp [collapseNLAux] at h
  | cons a t ih =>
    intro k hk c h
    simp only [collapseNLAux] at h
    by_cases ha : a = '\n'
    · rw [if_pos ha, if_pos hk] at h
      exact ih (k + 1) (by omega) c h
    · rw [if_neg ha] at h
      simp only [List.head?_cons, Option.some.injEq] at h
      rw [← h]
      exact ha

/-- With at least one newline of the current run already seen, the
collapse output never begins with two newlines. -/
theorem collapseNLAux_take2_ne :
    ∀ (l : List Char) (k : Nat), 1 ≤ k →
      (collapseNLAux k l).take 2 ≠ ['\n', '\n'] := by
  intro l
  cases l with
  | nil =>
    intro k hk h
    simp [collapseNLAux] at h
  | cons a t =>
    intro k hk h
    simp only [collapseNLAux] at h
    by_cases ha : a = '\n'
    · rw [if_pos ha] at h
      by_cases hk2 : 2 ≤ k
      · rw [if_pos hk2] at h
        cases hx : collapseNLAux (k + 1) t with
        | nil => rw [hx] at h; simp at h
        | cons x xs =>
          rw [hx] at h
          have h2 : x :: xs.take 1 = ['\n', '\n'] := h
          exact collapseNLAux_head_ne_nl t (k + 1) (by omega) x
            (by rw [hx]; simp) (List.cons.inj h2).1
      · rw [if_neg hk2] at h
        have hk1 : k = 1 := by omega
        subst hk1
        cases hx : collapseNLAux 2 t with
        | nil =>
          rw [hx] at h
          have h2 : ('\n' : Char) :: ([] : List Char).take 1 = ['\n', '\n'] := h
          simp at h2
        | cons x xs =>
          rw [hx] at h
          have h2 : ('\n' : Char) :: (x :: xs).take 1 = ['\n', '\n'] := h
          have h3 : x :: xs.take 0 = ['\n'] := (List.cons.inj h2).2
          exact collapseNLAux_head_ne_nl t 2 (by omega) x
            (by rw [hx]; simp) (List.cons.inj h3).1
    · rw [if_neg ha] at h
      cases hx : collapseNLAux 0 t with
      | nil =>
        rw [hx] at h
        have h2 : a :: ([] : List Char).take 1 = ['\n', '\n'] := h
        exact ha (List.cons.inj h2).1
      | cons x xs =>
        rw [hx] at h
        have h2 : a :: (x :: xs).take 1 = ['\n', '\n'] := h
        exact ha (List.cons.inj h2).1

/-- The newline collapse never leaves three consecutive newlines. -/
theorem collapseNLAux_noTriple :
    ∀ (l : List Char) (k : Nat), hasTripleNL (collapseNLAux k l) = false := by
  intro l
  induction l with
  | nil => intro k; simp [collapseNLAux, hasTripleNL]
  | cons a t ih =>
    intro k
    simp only [collapseNLAux]
    by_cases ha : a = '\n'
    · rw [if_pos ha]
      by_cases hk : 2 ≤ k
      · rw [if_pos hk]
        exact ih (k + 1)
      · rw [if_neg hk]
        rw [hasTripleNL, ih (k + 1)]
        simp only [Bool.or_false, decide_eq_false_iff_not]
        intro htake
        have h2 : ('\n' : Char) :: (collapseNLAux (k + 1) t).take 2
            = ['\n', '\n', '\n'] := htake
        exact collapseNLAux_take2_ne t (k + 1) (by omega) (List.cons.inj h2).2
    · rw [if_neg ha]
      rw [hasTripleNL, ih 0]
      simp only [Bool.or_false, decide_eq_false_iff_not]
      intro htake
      have h2 : a :: (collapseNLAux 0 t).take 2 = ['\n', '\n', '\n'] := htake
      exact ha (List.cons.inj h2).1

/-- A non-newline head survives the newline collapse in place. -/
theorem collapseNLAux_head (a : Char) (l : List Char) (k : Nat)
    (ha : a ≠ '\n') : (collapseNLAux k (a :: l)).head? = some a := by
  simp only [collapseNLAux, if_neg ha]
  simp

/-- A non-newline last element survives the newline collapse in place. -/
theorem collapseNLAux_getLast :
    ∀ (l : List Char) (c : Char), c ≠ '\n' →
      ∀ k, (collapseNLAux k (l ++ [c])).getLast? = some c := by
  intro l
  induction l with
  | nil =>
    intro c hc k
    simp [collapseNLAux, if_neg hc]
  | cons a t ih =>
    intro c hc k
    simp only [List.cons_append, collapseNLAux]
    by_cases ha : a = '\n'
    · rw [if_pos ha]
      by_cases hk : 2 ≤ k
      · rw [if_pos hk]
        exact ih c hc (k + 1)
      · rw [if_neg hk]
        exact getLast?_cons_keep _ (ih c hc (k + 1))
    · rw [if_neg ha]
      exact getLast?_cons_keep _ (ih c hc 0)


/-- C8 (confirmed): for every input, `sanitizeText` output has no
leading or trailing whitespace, contains no CR character, contains no
run of 3 or more consecutive LF characters, and the empty string maps
to the empty string. -/
theorem c8_sanitize_text (s : List Char) :
    sanitizeText [] = []
  ∧ (∀ c ∈ sanitizeText s, c ≠ '\x0d')
  ∧ hasTripleNL (sanitizeText s) = false
  ∧ (∀ c, (sanitizeText s).head? = some c → isJsWs c = false)
  ∧ (∀ c, (sanitizeText s).getLast? = some c → isJsWs c = false) := by
  refine ⟨rfl, ?_, ?_, ?_, ?_⟩ <;> by_cases hs : s.isEmpty
  · intro c hc
    simp [sanitizeText, hs] at hc
  · rw [show sanitizeText s
        = collapseNLAux 0 (replaceCR (replaceCRLF (jsTrim s)))
      from by simp [sanitizeText, hs, collapseNL]]
    intro c hc
    exact replaceCR_no_cr _ c (collapseNLAux_mem _ 0 c hc)
  · simp [sanitizeText, hs, hasTripleNL]
  · rw [show sanitizeText s
        = collapseNLAux 0 (replaceCR (replaceCRLF (jsTrim s)))
      from by simp [sanitizeText, hs, collapseNL]]
    exact collapseNLAux_noTriple _ 0
  · intro c h
    simp [sanitizeText, hs] at h
  · rw [show sanitizeText s
        = collapseNLAux 0 (replaceCR (replaceCRLF (jsTrim s)))
      from by simp [sanitizeText, hs, collapseNL]]
    intro c h
    cases hT : jsTrim s with
    | nil =>
      rw [hT] at h
      simp [replaceCRLF, replaceCR, collapseNLAux] at h
    | cons a t =>
      have haws : isJsWs a = false := jsTrim_head_not_ws s a (by rw [hT]; simp)
      have hacr : a ≠ '\x0d' := by
        intro hx
        rw [hx] at haws
        exact absurd haws (by decide)
      have hanl : a ≠ '\n' := by
        intro hx
        rw [hx] at haws
        exact absurd haws (by decide)
      have hY := replaceCRLF_head a t hacr
      cases hYx : replaceCRLF (a :: t) with
      | nil => rw [hYx] at hY; simp at hY
      | cons y ys =>
        rw [hYx] at hY
        simp only [List.head?_cons, Option.some.injEq] at hY
        rw [hT, hYx, hY] at h
        rw [show replaceCR (a :: ys)
              = (if a = '\x0d' then '\n' else a) :: replaceCR ys
            from by simp [replaceCR]] at h
        rw [if_neg hacr, collapseNLAux_head a _ 0 hanl] at h
        have hac : a = c := by injection h
        rw [← hac]
        exact haws
  · intro c h
    simp [sanitizeText, hs] at h
  · rw [show sanitizeText s
        = collapseNLAux 0 (replaceCR (replaceCRLF (jsTrim s)))
      from by simp [sanitizeText, hs, collapseNL]]
    intro c h
    cases hT : (jsTrim s).getLast? with
    | none =>
      rw [List.getLast?_eq_none_iff.mp hT] at h
      simp [replaceCRLF, replaceCR, collapseNLAux] at h
    | some z =>
      have hzws : isJsWs z = false := jsTrim_getLast_not_ws s z hT
      have hzcr : z ≠ '\x0d' := by
        intro hx
        rw [hx] at hzws
        exact absurd hzws (by decide)
      have hznl : z ≠ '\n' := by
        intro hx
        rw [hx] at hzws
        exact absurd hzws (by decide)
      obtain ⟨t1, ht1⟩ := List.getLast?_eq_some_iff.mp hT
      rw [ht1] at h
      obtain ⟨t2, ht2⟩ := List.getLast?_eq_some_iff.mp (replaceCRLF_getLast t1 z)
      rw [ht2] at h
      obtain ⟨t3, ht3⟩ := List.getLast?_eq_some_iff.mp (replaceCR_getLast t2 z hzcr)
      rw [ht3, collapseNLAux_getLast t3 z hznl 0] at h
      have hzc : z = c := by injection h
      rw [← hzc]
      exact hzws

/-- Witness for `c8_sanitize_text` on `"  a\r\n\n\n\nb\t"`, whose
sanitized form is `"a\n\nb"`: its head and last characters are
non-whitespace and its characters are CR-free. -/
theorem c8_sanitize_text_witness :
    ('a' : Char) ≠ '\x0d' ∧ isJsWs 'a' = false ∧ isJsWs 'b' = false :=
  ⟨(c8_sanitize_text "  a\x0d\n\n\n\nb\t".data).2.1 'a' (by decide),
   (c8_sanitize_text "  a\x0d\n\n\n\nb\t".data).2.2.2.1 'a' (by decide),
   (c8_sanitize_text "  a\x0d\n\n\n\nb\t".data).2.2.2.2 'b' (by decide)⟩


/-! ### ContentExtractor: text fallback (C6) -/

/-- The reduce result is one of the candidates. -/
theorem longestOf_mem (x : List Char) (xs : List (List Char)) :
    longestOf x xs ∈ x :: xs := by
  induction xs generalizing x with
  | nil => simp [longestOf]
  | cons y ys ih =>
    have step : longestOf x (y :: ys)
        = longestOf (if x.length > y.length then x else y) ys := rfl
    rw [step]
    have h := ih (if x.length > y.length then x else y)
    rcases List.mem_cons.mp h with h1 | h1
    · rw [h1]
      by_cases hxy : x.length > y.length
      · rw [if_pos hxy]
        exact List.mem_cons_self _ _
      · rw [if_neg hxy]
        exact List.mem_cons_of_mem _ (List.mem_cons_self _ _)
    · exact List.mem_cons_of_mem _ (List.mem_cons_of_mem _ h1)

/-- The reduce result is at least as long as every candidate. -/
theorem longestOf_ge (x : List Char) (xs : List (List Char)) :
    ∀ l ∈ x :: xs, l.length ≤ (longestOf x xs).length := by
  induction xs generalizing x with
  | nil =>
    intro l hl
    rcases List.mem_cons.mp hl with h | h
    · rw [h]; simp [longestOf]
    · simp at h
  | cons y ys ih =>
    intro l hl
    have step : longestOf x (y :: ys)
        = longestOf (if x.length > y.length then x else y) ys := rfl
    rw [step]
    rcases List.mem_cons.mp hl with h | h
    · rw [h]
      calc x.length ≤ (if x.length > y.length then x else y).length := by
            by_cases hxy : x.length > y.length
            · rw [if_pos hxy]
            · rw [if_neg hxy]; omega
        _ ≤ _ := ih _ _ (List.mem_cons_self _ _)
    · rcases List.mem_cons.mp h with h1 | h1
      · rw [h1]
        calc y.length ≤ (if x.length > y.length then x else y).length := by
              by_cases hxy : x.length > y.length
              · rw [if_pos hxy]; omega
              · rw [if_neg hxy]
          _ ≤ _ := ih _ _ (List.mem_cons_self _ _)
      · exact ih _ _ (List.mem_cons_of_mem _ h1)

/-- C6 (counterexample): with paragraphs of trimmed lengths 5, 25 and
40 — the latter two both exceeding the 20-character threshold — the
fallback returns the **first** sufficiently long paragraph (length 25),
not the longest one (length 40). -/
theorem c6_first_not_longest_counterexample :
    extractTextFallback
        ⟨["short".data,
          "aaaaaaaaaaaaaaaaaaaaaaaaa".data,
          "bbbbbbbbbbbbbbbbbbbbbbbbbbbbbbbbbbbbbbbb".data], []⟩
      = some "aaaaaaaaaaaaaaaaaaaaaaaaa".data
  ∧ ("bbbbbbbbbbbbbbbbbbbbbbbbbbbbbbbbbbbbbbbb".data : List Char).length
      > ("aaaaaaaaaaaaaaaaaaaaaaaaa".data : List Char).length
  ∧ (20 : Nat)
      < ("bbbbbbbbbbbbbbbbbbbbbbbbbbbbbbbbbbbbbbbb".data : List Char).length :=
  ⟨by decide, by decide, by decide⟩

/-- C6 (amended): when every field-specific text locator fails, the
fallback (1) returns only blocks longer than 20 characters, (2) fails
exactly when no trimmed paragraph qualifies and no trimmed line of the
container's text qualifies, (3) returns the **first** qualifying
paragraph in document order, and (4) only when no paragraph qualifies
falls back to the **longest** qualifying line of the container's whole
text. -/
theorem c6_text_fallback (c : Container) :
    (∀ t, extractTextFallback c = some t → 20 < t.length)
  ∧ (extractTextFallback c = none ↔
       ((∀ p ∈ c.paragraphs, longEnough (jsTrim p) = false)
        ∧ (∀ l ∈ splitNL (jsTrim c.allText), ¬ 20 < (jsTrim l).length)))
  ∧ (∀ l1 t l2, c.paragraphs.map jsTrim = l1 ++ t :: l2 →
       longEnough t = true → (∀ u ∈ l1, longEnough u = false) →
       extractTextFallback c = some t)
  ∧ ((∀ p ∈ c.paragraphs, longEnough (jsTrim p) = false) →
     ∀ x xs,
       ((splitNL (jsTrim c.allText)).map jsTrim).filter
           (fun l => decide (20 < l.length)) = x :: xs →
       extractTextFallback c = some (longestOf x xs)
       ∧ longestOf x xs ∈ x :: xs
       ∧ (∀ l ∈ x :: xs, l.length ≤ (longestOf x xs).length)) := by
  refine ⟨?_, ?_, ?_, ?_⟩
  · intro t h
    unfold extractTextFallback at h
    cases hf : (c.paragraphs.map jsTrim).find? longEnough with
    | some u =>
      rw [hf] at h
      have hu : longEnough u = true := List.find?_some hf
      have ht : u = t := by injection h
      rw [← ht]
      simp only [longEnough, Bool.and_eq_true, decide_eq_true_eq] at hu
      exact hu.2
    | none =>
      rw [hf] at h
      cases hl : ((splitNL (jsTrim c.allText)).map jsTrim).filter
          (fun l => decide (20 < l.length)) with
      | nil => rw [hl] at h; simp at h
      | cons x xs =>
        rw [hl] at h
        have ht : longestOf x xs = t := by injection h
        have hmem : longestOf x xs ∈ x :: xs := longestOf_mem x xs
        rw [← hl] at hmem
        have := (List.mem_filter.mp hmem).2
        simp only [decide_eq_true_eq] at this
        rw [← ht]
        exact this
  · constructor
    · intro h
      unfold extractTextFallback at h
      cases hf : (c.paragraphs.map jsTrim).find? longEnough with
      | some u => rw [hf] at h; simp at h
      | none =>
        rw [hf] at h
        cases hl : ((splitNL (jsTrim c.allText)).map jsTrim).filter
            (fun l => decide (20 < l.length)) with
        | cons x xs => rw [hl] at h; simp at h
        | nil =>
          constructor
          · intro p hp
            have := List.find?_eq_none.mp hf (jsTrim p)
              (List.mem_map_of_mem jsTrim hp)
            simpa using this
          · intro l hlm
            have := List.filter_eq_nil_iff.mp hl (jsTrim l)
              (List.mem_map_of_mem jsTrim hlm)
            simpa using this
    · intro ⟨h1, h2⟩
      have hf : (c.paragraphs.map jsTrim).find? longEnough = none := by
        rw [List.find?_eq_none]
        intro u hu
        obtain ⟨p, hp, hpu⟩ := List.mem_map.mp hu
        rw [← hpu]
        simp [h1 p hp]
      have hl : ((splitNL (jsTrim c.allText)).map jsTrim).filter
          (fun l => decide (20 < l.length)) = [] := by
        rw [List.filter_eq_nil_iff]
        intro u hu
        obtain ⟨l, hlm, hlu⟩ := List.mem_map.mp hu
        rw [← hlu]
        simpa using h2 l hlm
      unfold extractTextFallback
      rw [hf, hl]
  · intro l1 t l2 hdec htrue hbefore
    have hf : (c.paragraphs.map jsTrim).find? longEnough = some t := by
      rw [List.find?_eq_some]
      exact ⟨htrue, l1, l2, hdec, fun a ha => by simp [hbefore a ha]⟩
    unfold extractTextFallback
    rw [hf]
  · intro h1 x xs hl
    have hf : (c.paragraphs.map jsTrim).find? longEnough = none := by
      rw [List.find?_eq_none]
      intro u hu
      obtain ⟨p, hp, hpu⟩ := List.mem_map.mp hu
      rw [← hpu]
      simp [h1 p hp]
    refine ⟨?_, longestOf_mem x xs, longestOf_ge x xs⟩
    unfold extractTextFallback
    rw [hf, hl]

/-- Witness for `c6_text_fallback`: a container whose second paragraph
is the first one over the threshold. -/
theorem c6_text_fallback_witness :
    extractTextFallback
        ⟨["tiny".data, "cccccccccccccccccccccccccccccc".data], []⟩
      = some "cccccccccccccccccccccccccccccc".data :=
  (c6_text_fallback
      ⟨["tiny".data, "cccccccccccccccccccccccccccccc".data], []⟩).2.2.1
    ["tiny".data] "cccccccccccccccccccccccccccccc".data []
    (by decide) (by decide) (by decide)


/-! ### Orchestrator: dedup (C3) -/

/-- The kept reviews are a sublist of the input (order preserved, no
reordering, no duplication). -/
theorem dedup_sublist (l : List TransformedReview) :
    ∀ seen, (dedupFilter seen l).2.Sublist l := by
  induction l with
  | nil => intro seen; simp [dedupFilter]
  | cons a rest ih =>
    intro seen
    by_cases hk : reviewKey a ∈ seen
    · simp only [dedupFilter, if_pos hk]
      exact (ih seen).cons a
    · simp only [dedupFilter, if_neg hk]
      exact (ih (reviewKey a :: seen)).cons₂ a

/-- No kept review's key was in the initial seen set. -/
theorem dedup_not_seen (l : List TransformedReview) :
    ∀ seen r, r ∈ (dedupFilter seen l).2 → reviewKey r ∉ seen := by
  induction l with
  | nil => intro seen r hr; simp [dedupFilter] at hr
  | cons a rest ih =>
    intro seen r hr
    by_cases hk : reviewKey a ∈ seen
    · simp only [dedupFilter, if_pos hk] at hr
      exact ih seen r hr
    · simp only [dedupFilter, if_neg hk] at hr
      rcases List.mem_cons.mp hr with h | h
      · rw [h]
        exact hk
      · intro hmem
        exact ih (reviewKey a :: seen) r h (List.mem_cons_of_mem _ hmem)

/-- The kept reviews have pairwise distinct keys: of several records
with the same key (in particular with identical text, reviewer and
date) exactly the first is kept. -/
theorem dedup_nodup (l : List TransformedReview) :
    ∀ seen, ((dedupFilter seen l).2.map reviewKey).Nodup := by
  induction l with
  | nil => intro seen; simp [dedupFilter]
  | cons a rest ih =>
    intro seen
    by_cases hk : reviewKey a ∈ seen
    · simp only [dedupFilter, if_pos hk]
      exact ih seen
    · simp only [dedupFilter, if_neg hk, List.map_cons]
      refine List.Nodup.cons ?_ (ih (reviewKey a :: seen))
      intro hmem
      obtain ⟨r, hr, hrk⟩ := List.mem_map.mp hmem
      exact dedup_not_seen rest (reviewKey a :: seen) r hr
        (by rw [hrk]; exact List.mem_cons_self _ _)

/-- The final seen set holds exactly the initial keys plus the keys of
all processed records; in particular it only grows. -/
theorem dedup_seen_iff (l : List TransformedReview) :
    ∀ seen k, k ∈ (dedupFilter seen l).1 ↔ k ∈ seen ∨ k ∈ l.map reviewKey := by
  induction l with
  | nil => intro seen k; simp [dedupFilter]
  | cons a rest ih =>
    intro seen k
    by_cases hk : reviewKey a ∈ seen
    · simp only [dedupFilter, if_pos hk, List.map_cons, List.mem_cons]
      rw [ih seen k]
      constructor
      · rintro (h | h)
        · exact Or.inl h
        · exact Or.inr (Or.inr h)
      · rintro (h | h | h)
        · exact Or.inl h
        · rw [h]
          exact Or.inl hk
        · exact Or.inr h
    · simp only [dedupFilter, if_neg hk, List.map_cons, List.mem_cons]
      rw [ih (reviewKey a :: seen) k]
      simp only [List.mem_cons]
      tauto

/-- Every record whose key is initially unseen gets a representative
with its key among the kept records. -/
theorem dedup_represented (l : List TransformedReview) :
    ∀ seen r, r ∈ l → reviewKey r ∉ seen →
      ∃ r' ∈ (dedupFilter seen l).2, reviewKey r' = reviewKey r := by
  induction l with
  | nil => intro seen r hr; simp at hr
  | cons a rest ih =>
    intro seen r hr hun
    by_cases hk : reviewKey a ∈ seen
    · simp only [dedupFilter, if_pos hk]
      rcases List.mem_cons.mp hr with h | h
      · rw [h] at hun
        exact absurd hk hun
      · exact ih seen r h hun
    · simp only [dedupFilter, if_neg hk]
      rcases List.mem_cons.mp hr with h | h
      · exact ⟨a, List.mem_cons_self _ _, by rw [h]⟩
      · by_cases hkey : reviewKey r = reviewKey a
        · exact ⟨a, List.mem_cons_self _ _, hkey.symm⟩
        · obtain ⟨r', hr', hrk⟩ := ih (reviewKey a :: seen) r h
            (by
              intro hmem
              rcases List.mem_cons.mp hmem with hx | hx
              · exact hkey hx
              · exact hun hx)
          exact ⟨r', List.mem_cons_of_mem _ hr', hrk⟩

/-- Deduping a concatenation equals deduping the parts in sequence with
the threaded seen set: the result is independent of how the record
stream is cut into pages. -/
theorem dedup_append (l : List TransformedReview) :
    ∀ seen (l2 : List TransformedReview),
      dedupFilter seen (l ++ l2)
        = ((dedupFilter (dedupFilter seen l).1 l2).1,
           (dedupFilter seen l).2 ++ (dedupFilter (dedupFilter seen l).1 l2).2) := by
  induction l with
  | nil => intro seen l2; simp [dedupFilter]
  | cons a rest ih =>
    intro seen l2
    by_cases hk : reviewKey a ∈ seen
    · simp only [List.cons_append, dedupFilter, if_pos hk]
      exact ih seen l2
    · simp only [List.cons_append, dedupFilter, if_neg hk, List.append_eq]
      rw [ih (reviewKey a :: seen) l2]

/-- C3 (counterexample): the dedup key is the string
`text + '|' + reviewerName + '|' + date`, not the tuple — two records
with different tuples but colliding joined keys (a `'|'` inside a
field) dedup to one record, so "appended iff the tuple is unseen" fails. -/
theorem c3_key_collision_counterexample :
    (dedupFilter []
        [⟨5, "a|b".data, "d".data, "c".data, [], false⟩,
         ⟨5, "a".data, "d".data, "b|c".data, [], false⟩]).2
      = [⟨5, "a|b".data, "d".data, "c".data, [], false⟩]
  ∧ reviewKey ⟨5, "a|b".data, "d".data, "c".data, [], false⟩
      = reviewKey ⟨5, "a".data, "d".data, "b|c".data, [], false⟩
  ∧ ¬ (("a|b".data : List Char) = "a".data
        ∧ ("c".data : List Char) = "b|c".data
        ∧ ("d".data : List Char) = "d".data) :=
  ⟨by decide, by decide, by decide⟩

/-- C3 (amended): across the run, a transformed record is appended to
the accumulator iff its **string** identity key
`text + '|' + reviewerName + '|' + date` has not been seen before
(which coincides with the tuple `(text, reviewerName, date)` whenever
the fields contain no `'|'`): kept records form an order-preserving
sublist with pairwise distinct keys, none initially seen, every
unseen-key record is represented by its first occurrence, the seen set
grows to exactly the initial keys plus all processed keys, and the
outcome is invariant under re-cutting the stream into pages. -/
theorem c3_dedup (seen : List (List Char)) (l : List TransformedReview) :
    (dedupFilter seen l).2.Sublist l
  ∧ (∀ r ∈ (dedupFilter seen l).2, reviewKey r ∉ seen)
  ∧ ((dedupFilter seen l).2.map reviewKey).Nodup
  ∧ (∀ k, k ∈ (dedupFilter seen l).1 ↔ k ∈ seen ∨ k ∈ l.map reviewKey)
  ∧ (∀ r ∈ l, reviewKey r ∉ seen →
      ∃ r' ∈ (dedupFilter seen l).2, reviewKey r' = reviewKey r)
  ∧ (∀ l2 : List TransformedReview,
      dedupFilter seen (l ++ l2)
        = ((dedupFilter (dedupFilter seen l).1 l2).1,
           (dedupFilter seen l).2 ++ (dedupFilter (dedupFilter seen l).1 l2).2)) :=
  ⟨dedup_sublist l seen, dedup_not_seen l seen, dedup_nodup l seen,
   dedup_seen_iff l seen, dedup_represented l seen, dedup_append l seen⟩

/-- Witness for `c3_dedup`: inserting the same record twice keeps
exactly one copy, and its key is represented. -/
theorem c3_dedup_witness :
    ((dedupFilter []
        [⟨4, "good".data, "2024-01-01".data, "ann".data, [], true⟩,
         ⟨4, "good".data, "2024-01-01".data, "ann".data, [], true⟩]).2.map
        reviewKey).Nodup
  ∧ (∃ r' ∈ (dedupFilter []
        [⟨4, "good".data, "2024-01-01".data, "ann".data, [], true⟩,
         ⟨4, "good".data, "2024-01-01".data, "ann".data, [], true⟩]).2,
      reviewKey r'
        = reviewKey ⟨4, "good".data, "2024-01-01".data, "ann".data, [], true⟩) :=
  ⟨(c3_dedup []
      [⟨4, "good".data, "2024-01-01".data, "ann".data, [], true⟩,
       ⟨4, "good".data, "2024-01-01".data, "ann".data, [], true⟩]).2.2.1,
   (c3_dedup []
      [⟨4, "good".data, "2024-01-01".data, "ann".data, [], true⟩,
       ⟨4, "good".data, "2024-01-01".data, "ann".data, [], true⟩]).2.2.2.2.1
     ⟨4, "good".data, "2024-01-01".data, "ann".data, [], true⟩
     (List.mem_cons_self _ _) (by decide)⟩


/-! ### Orchestrator: loop lemmas -/

/-- Equation: out of fuel (unreachable from `scrape`, same exit state
as a false guard). -/
theorem scrapeLoop_zero (tf : RawReview → TransformedReview)
    (cfg : OrchestratorConfig) (env : Nat → PageEnv) (cp : Nat) (hn : Bool)
    (seen : List (List Char)) (acc : List TransformedReview) (pp : Nat)
    (errors : List (List Char)) (cks : List ExportEvent) :
    scrapeLoop tf cfg env 0 cp hn seen acc pp errors cks
      = ⟨acc, pp, errors, cks, seen⟩ := rfl

/-- Equation: the `while` guard fails — the loop exits with its state. -/
theorem scrapeLoop_stop (tf : RawReview → TransformedReview)
    (cfg : OrchestratorConfig) (env : Nat → PageEnv) (f cp : Nat) (hn : Bool)
    (seen : List (List Char)) (acc : List TransformedReview) (pp : Nat)
    (errors : List (List Char)) (cks : List ExportEvent)
    (hg : ¬ (hn = true ∧ cp ≤ cfg.maxPages)) :
    scrapeLoop tf cfg env (f + 1) cp hn seen acc pp errors cks
      = ⟨acc, pp, errors, cks, seen⟩ := by
  simp only [scrapeLoop]
  rw [if_neg hg]

/-- Equation: the page-level `catch` — any exception in the iteration
is swallowed, its message recorded, and the loop stops with the state
unchanged (the code sets `hasNextPage = false`). -/
theorem scrapeLoop_err (tf : RawReview → TransformedReview)
    (cfg : OrchestratorConfig) (env : Nat → PageEnv) (f cp : Nat) (hn : Bool)
    (seen : List (List Char)) (acc : List TransformedReview) (pp : Nat)
    (errors : List (List Char)) (cks : List ExportEvent) (m : List Char)
    (hg : hn = true ∧ cp ≤ cfg.maxPages)
    (hex : (env cp).extract = Except.error m) :
    scrapeLoop tf cfg env (f + 1) cp hn seen acc pp errors cks
      = ⟨acc, pp, errors ++ [pageErrorMsg cp m], cks, seen⟩ := by
  simp only [scrapeLoop]
  rw [if_pos hg, hex]

/-- Equation: a successful extraction — dedup, accumulate, maybe
checkpoint, then break at the page cap, stop when no next page or the
click fails, or advance. -/
theorem scrapeLoop_ok (tf : RawReview → TransformedReview)
    (cfg : OrchestratorConfig) (env : Nat → PageEnv) (f cp : Nat) (hn : Bool)
    (seen : List (List Char)) (acc : List TransformedReview) (pp : Nat)
    (errors : List (List Char)) (cks : List ExportEvent)
    (raws : List RawReview)
    (hg : hn = true ∧ cp ≤ cfg.maxPages)
    (hex : (env cp).extract = Except.ok raws) :
    scrapeLoop tf cfg env (f + 1) cp hn seen acc pp errors cks
      = (if cfg.maxPages ≤ cp then
          ⟨acc ++ (dedupFilter seen (raws.map tf)).2, pp + 1, errors,
           (if (pp + 1) % 50 = 0 then
             cks ++ [⟨checkpointName cfg.outputFilename (pp + 1),
               acc ++ (dedupFilter seen (raws.map tf)).2,
               (env cp).checkpointOk⟩]
            else cks),
           (dedupFilter seen (raws.map tf)).1⟩
        else if (env cp).detectNext = true then
          (if (env cp).click.success = true then
            scrapeLoop tf cfg env f (cp + 1) (env cp).click.hasNextPage
              (dedupFilter seen (raws.map tf)).1
              (acc ++ (dedupFilter seen (raws.map tf)).2) (pp + 1) errors
              (if (pp + 1) % 50 = 0 then
                cks ++ [⟨checkpointName cfg.outputFilename (pp + 1),
                  acc ++ (dedupFilter seen (raws.map tf)).2,
                  (env cp).checkpointOk⟩]
               else cks)
          else
            ⟨acc ++ (dedupFilter seen (raws.map tf)).2, pp + 1,
             errors ++ [paginationErrorMsg cp
               ((env cp).click.error.getD "unknown error".data)],
             (if (pp + 1) % 50 = 0 then
               cks ++ [⟨checkpointName cfg.outputFilename (pp + 1),
                 acc ++ (dedupFilter seen (raws.map tf)).2,
                 (env cp).checkpointOk⟩]
              else cks),
             (dedupFilter seen (raws.map tf)).1⟩)
        else
          ⟨acc ++ (dedupFilter seen (raws.map tf)).2, pp + 1, errors,
           (if (pp + 1) % 50 = 0 then
             cks ++ [⟨checkpointName cfg.outputFilename (pp + 1),
               acc ++ (dedupFilter seen (raws.map tf)).2,
               (env cp).checkpointOk⟩]
            else cks),
           (dedupFilter seen (raws.map tf)).1⟩) := by
  simp only [scrapeLoop]
  rw [if_pos hg, hex]

/-- The loop only appends to the checkpoint-event list. -/
theorem scrapeLoop_cks_mono (tf : RawReview → TransformedReview)
    (cfg : OrchestratorConfig) (env : Nat → PageEnv) :
    ∀ (fuel cp : Nat) (hn : Bool) seen acc pp errors cks,
      ∃ suf, (scrapeLoop tf cfg env fuel cp hn seen acc pp errors cks).checkpoints
        = cks ++ suf := by
  intro fuel
  induction fuel with
  | zero =>
    intro cp hn seen acc pp errors cks
    exact ⟨[], by simp [scrapeLoop_zero]⟩
  | succ f ih =>
    intro cp hn seen acc pp errors cks
    by_cases hg : hn = true ∧ cp ≤ cfg.maxPages
    · cases hex : (env cp).extract with
      | error m =>
        rw [scrapeLoop_err tf cfg env f cp hn seen acc pp errors cks m hg hex]
        exact ⟨[], by simp⟩
      | ok raws =>
        rw [scrapeLoop_ok tf cfg env f cp hn seen acc pp errors cks raws hg hex]
        by_cases hmax : cfg.maxPages ≤ cp
        · rw [if_pos hmax]
          by_cases hmod : (pp + 1) % 50 = 0
          · rw [if_pos hmod]
            exact ⟨_, rfl⟩
          · rw [if_neg hmod]
            exact ⟨[], by simp⟩
        · rw [if_neg hmax]
          by_cases hdet : (env cp).detectNext = true
          · rw [if_pos hdet]
            by_cases hclk : (env cp).click.success = true
            · rw [if_pos hclk]
              by_cases hmod : (pp + 1) % 50 = 0
              · rw [if_pos hmod]
                obtain ⟨suf, hsuf⟩ := ih (cp + 1) (env cp).click.hasNextPage
                  (dedupFilter seen (raws.map tf)).1
                  (acc ++ (dedupFilter seen (raws.map tf)).2) (pp + 1) errors
                  (cks ++ [⟨checkpointName cfg.outputFilename (pp + 1),
                    acc ++ (dedupFilter seen (raws.map tf)).2,
                    (env cp).checkpointOk⟩])
                exact ⟨_, by rw [hsuf, List.append_assoc]⟩
              · rw [if_neg hmod]
                exact ih (cp + 1) (env cp).click.hasNextPage _ _ (pp + 1)
                  errors cks
            · rw [if_neg hclk]
              by_cases hmod : (pp + 1) % 50 = 0
              · rw [if_pos hmod]
                exact ⟨_, rfl⟩
              · rw [if_neg hmod]
                exact ⟨[], by simp⟩
          · rw [if_neg hdet]
            by_cases hmod : (pp + 1) % 50 = 0
            · rw [if_pos hmod]
              exact ⟨_, rfl⟩
            · rw [if_neg hmod]
              exact ⟨[], by simp⟩
    · rw [scrapeLoop_stop tf cfg env f cp hn seen acc pp errors cks hg]
      exact ⟨[], by simp⟩


/-- The checkpoint-export outcomes never influence the collected
reviews, the page count, the error list or the seen set: two runs
whose environments agree on extraction, next-page detection and
clicking (but may disagree on every `checkpointOk`) produce the same
data, from any pair of checkpoint accumulators. -/
theorem scrapeLoop_ck_independent (tf : RawReview → TransformedReview)
    (cfg : OrchestratorConfig) (env env' : Nat → PageEnv)
    (h : ∀ i, (env i).extract = (env' i).extract
       ∧ (env i).detectNext = (env' i).detectNext
       ∧ (env i).click = (env' i).click) :
    ∀ (fuel cp : Nat) (hn : Bool) seen acc pp errors cks cks',
      (scrapeLoop tf cfg env fuel cp hn seen acc pp errors cks).reviews
        = (scrapeLoop tf cfg env' fuel cp hn seen acc pp errors cks').reviews
    ∧ (scrapeLoop tf cfg env fuel cp hn seen acc pp errors cks).pagesProcessed
        = (scrapeLoop tf cfg env' fuel cp hn seen acc pp errors cks').pagesProcessed
    ∧ (scrapeLoop tf cfg env fuel cp hn seen acc pp errors cks).errors
        = (scrapeLoop tf cfg env' fuel cp hn seen acc pp errors cks').errors
    ∧ (scrapeLoop tf cfg env fuel cp hn seen acc pp errors cks).seen
        = (scrapeLoop tf cfg env' fuel cp hn seen acc pp errors cks').seen := by
  intro fuel
  induction fuel with
  | zero =>
    intro cp hn seen acc pp errors cks cks'
    rw [scrapeLoop_zero, scrapeLoop_zero]
    exact ⟨rfl, rfl, rfl, rfl⟩
  | succ f ih =>
    intro cp hn seen acc pp errors cks cks'
    by_cases hg : hn = true ∧ cp ≤ cfg.maxPages
    · cases hex : (env cp).extract with
      | error m =>
        rw [scrapeLoop_err tf cfg env f cp hn seen acc pp errors cks m hg hex,
            scrapeLoop_err tf cfg env' f cp hn seen acc pp errors cks' m hg
              (by rw [← (h cp).1]; exact hex)]
        exact ⟨rfl, rfl, rfl, rfl⟩
      | ok raws =>
        rw [scrapeLoop_ok tf cfg env f cp hn seen acc pp errors cks raws hg hex,
            scrapeLoop_ok tf cfg env' f cp hn seen acc pp errors cks' raws hg
              (by rw [← (h cp).1]; exact hex)]
        rw [← (h cp).2.1, ← (h cp).2.2]
        by_cases hmax : cfg.maxPages ≤ cp
        · simp [if_pos hmax]
        · simp only [if_neg hmax]
          by_cases hdet : (env cp).detectNext = true
          · simp only [if_pos hdet]
            by_cases hclk : (env cp).click.success = true
            · simp only [if_pos hclk]
              exact ih (cp + 1) (env cp).click.hasNextPage _ _ (pp + 1)
                errors _ _
            · simp [if_neg hclk]
          · simp [if_neg hdet]
    · rw [scrapeLoop_stop tf cfg env f cp hn seen acc pp errors cks hg,
          scrapeLoop_stop tf cfg env' f cp hn seen acc pp errors cks' hg]
      exact ⟨rfl, rfl, rfl, rfl⟩

/-- Unfolding: the pattern matches at the start — replace it. -/
theorem jsReplaceFirst_prefix (s pat repl : List Char)
    (h : pat.isPrefixOf s = true) :
    jsReplaceFirst s pat repl = repl ++ s.drop pat.length := by
  cases s with
  | nil =>
    simp only [jsReplaceFirst]
    rw [if_pos h]
    simp
  | cons c rest =>
    simp only [jsReplaceFirst]
    rw [if_pos h]

/-- Unfolding: the pattern does not match here — keep the head and
scan the tail. -/
theorem jsReplaceFirst_cons_neg (c : Char) (rest pat repl : List Char)
    (h : ¬ (pat.isPrefixOf (c :: rest) = true)) :
    jsReplaceFirst (c :: rest) pat repl = c :: jsReplaceFirst rest pat repl := by
  simp only [jsReplaceFirst]
  rw [if_neg h]

/-- Naming lemma: when the configured output filename is `<base>.csv`
with a dot-free base, the line-173 `.replace` does produce
`<base>_checkpoint_page<N>.csv`. -/
theorem checkpointName_strip (base : List Char) (n : Nat)
    (hb : '.' ∉ base) :
    checkpointName (base ++ ".csv".data) n
      = base ++ "_checkpoint_page".data ++ (toString n).data ++ ".csv".data := by
  unfold checkpointName
  induction base with
  | nil =>
    rw [List.nil_append, jsReplaceFirst_prefix _ _ _ (by decide),
      List.drop_length]
    simp
  | cons b bs ih =>
    have hb1 : b ≠ '.' := fun hx => hb (by rw [hx]; exact List.mem_cons_self _ _)
    have hb2 : '.' ∉ bs := fun hx => hb (List.mem_cons_of_mem _ hx)
    have hpre : ¬ (".csv".data.isPrefixOf (b :: (bs ++ ".csv".data)) = true) := by
      intro hp
      have hq := List.isPrefixOf_iff_prefix.mp hp
      rw [show (".csv".data : List Char) = '.' :: "csv".data from rfl] at hq
      exact hb1 (List.cons_prefix_cons.mp hq).1.symm
    rw [List.cons_append, jsReplaceFirst_cons_neg _ _ _ _ hpre, ih hb2]
    simp


/-- C9 (counterexample): with output filename `reviews.txt` the
50th-page checkpoint is written to `reviews.txt` itself — the
`.replace('.csv', …)` is a no-op — not to
`reviews_checkpoint_page50.csv` as the `<base>_checkpoint_page<N>.csv`
naming rule demands. -/
theorem c9_checkpoint_name_counterexample :
    (scrape (fun _ => ⟨0, [], [], [], [], false⟩) ⟨"reviews.txt".data, 50⟩
        ⟨none, true, (fun _ => ⟨Except.ok [], true, true, ⟨true, true, none⟩⟩),
         none, none⟩).checkpoints
      = [⟨"reviews.txt".data, [], true⟩]
  ∧ ("reviews.txt".data : List Char) ≠ "reviews_checkpoint_page50.csv".data :=
  ⟨by decide, by decide⟩

/-- C9 (amended): on the page that makes the cumulative processed-page
count a multiple of 50, the loop records a checkpoint export of the
current accumulator to the file named by replacing the first `.csv`
occurrence in the output filename with `_checkpoint_page<N>.csv`
(which equals `<base>_checkpoint_page<N>.csv` whenever the filename is
`<base>.csv` with a dot-free base); the checkpoint outcome — success
or failure — cannot change the collected reviews, the page count or
the error list, so a failed checkpoint never aborts the run. -/
theorem c9_checkpoint (tf : RawReview → TransformedReview)
    (cfg : OrchestratorConfig) (env : Nat → PageEnv) (fuel cp : Nat)
    (seen : List (List Char)) (acc : List TransformedReview) (pp : Nat)
    (errors : List (List Char)) (cks : List ExportEvent)
    (raws : List RawReview)
    (hex : (env cp).extract = Except.ok raws)
    (hle : cp ≤ cfg.maxPages)
    (hmod : (pp + 1) % 50 = 0) :
    (⟨checkpointName cfg.outputFilename (pp + 1),
      acc ++ (dedupFilter seen (raws.map tf)).2,
      (env cp).checkpointOk⟩ : ExportEvent)
      ∈ (scrapeLoop tf cfg env (fuel + 1) cp true seen acc pp errors
          cks).checkpoints
  ∧ (∀ (base : List Char) (n : Nat), '.' ∉ base →
      checkpointName (base ++ ".csv".data) n
        = base ++ "_checkpoint_page".data ++ (toString n).data ++ ".csv".data)
  ∧ (∀ env' : Nat → PageEnv,
      (∀ i, (env i).extract = (env' i).extract
        ∧ (env i).detectNext = (env' i).detectNext
        ∧ (env i).click = (env' i).click) →
      ∀ cks' : List ExportEvent,
      (scrapeLoop tf cfg env (fuel + 1) cp true seen acc pp errors cks).reviews
        = (scrapeLoop tf cfg env' (fuel + 1) cp true seen acc pp errors
            cks').reviews
      ∧ (scrapeLoop tf cfg env (fuel + 1) cp true seen acc pp errors
            cks).pagesProcessed
        = (scrapeLoop tf cfg env' (fuel + 1) cp true seen acc pp errors
            cks').pagesProcessed
      ∧ (scrapeLoop tf cfg env (fuel + 1) cp true seen acc pp errors cks).errors
        = (scrapeLoop tf cfg env' (fuel + 1) cp true seen acc pp errors
            cks').errors) := by
  refine ⟨?_, fun base n hb => checkpointName_strip base n hb, ?_⟩
  · rw [scrapeLoop_ok tf cfg env fuel cp true seen acc pp errors cks raws
      ⟨rfl, hle⟩ hex]
    by_cases hmax : cfg.maxPages ≤ cp
    · rw [if_pos hmax, if_pos hmod]
      simp
    · rw [if_neg hmax]
      by_cases hdet : (env cp).detectNext = true
      · rw [if_pos hdet]
        by_cases hclk : (env cp).click.success = true
        · rw [if_pos hclk, if_pos hmod]
          obtain ⟨suf, hsuf⟩ := scrapeLoop_cks_mono tf cfg env fuel (cp + 1)
            (env cp).click.hasNextPage (dedupFilter seen (raws.map tf)).1
            (acc ++ (dedupFilter seen (raws.map tf)).2) (pp + 1) errors
            (cks ++ [⟨checkpointName cfg.outputFilename (pp + 1),
              acc ++ (dedupFilter seen (raws.map tf)).2,
              (env cp).checkpointOk⟩])
          rw [hsuf]
          simp
        · rw [if_neg hclk, if_pos hmod]
          simp
      · rw [if_neg hdet, if_pos hmod]
        simp
  · intro env' h cks'
    have hi := scrapeLoop_ck_independent tf cfg env env' h (fuel + 1) cp true
      seen acc pp errors cks cks'
    exact ⟨hi.1, hi.2.1, hi.2.2.1⟩

/-- Witness for `c9_checkpoint`: the 50th processed page (starting the
iteration at `pp = 49`) records the checkpoint event, and a `.csv`
filename with dot-free base gets the `<base>_checkpoint_page50.csv`
name. -/
theorem c9_checkpoint_witness :
    (⟨checkpointName "out.csv".data 50, [], false⟩ : ExportEvent)
      ∈ (scrapeLoop (fun _ => ⟨0, [], [], [], [], false⟩)
          ⟨"out.csv".data, 100⟩
          (fun _ => ⟨Except.ok [], false, false, ⟨false, false, none⟩⟩)
          1 1 true [] [] 49 [] []).checkpoints
  ∧ checkpointName ("out".data ++ ".csv".data) 50
      = "out".data ++ "_checkpoint_page".data ++ (toString 50).data
        ++ ".csv".data :=
  ⟨(c9_checkpoint (fun _ => ⟨0, [], [], [], [], false⟩) ⟨"out.csv".data, 100⟩
      (fun _ => ⟨Except.ok [], false, false, ⟨false, false, none⟩⟩)
      0 1 [] [] 49 [] [] [] rfl (by decide) (by decide)).1,
   (c9_checkpoint (fun _ => ⟨0, [], [], [], [], false⟩) ⟨"out.csv".data, 100⟩
      (fun _ => ⟨Except.ok [], false, false, ⟨false, false, none⟩⟩)
      0 1 [] [] 49 [] [] [] rfl (by decide) (by decide)).2.1
     "out".data 50 (by decide)⟩

/-- C2 (counterexample): a structural extraction failure ("no review
containers") on the very first page, with zero records collected,
does **not** propagate out of the run: the page-level `catch` records
the message and the run returns normally with zero reviews. -/
theorem c2_no_propagation_counterexample :
    (scrape (fun _ => ⟨0, [], [], [], [], false⟩) ⟨"reviews.csv".data, 5⟩
        ⟨none, true,
         (fun _ => ⟨Except.error
            "DOM structure changed: no review containers".data,
            true, false, ⟨false, false, none⟩⟩),
         none, none⟩).outcome
      = RunOutcome.returned 0 0
          [pageErrorMsg 1 "DOM structure changed: no review containers".data]
  ∧ ¬ ∃ m errs, (scrape (fun _ => ⟨0, [], [], [], [], false⟩)
        ⟨"reviews.csv".data, 5⟩
        ⟨none, true,
         (fun _ => ⟨Except.error
            "DOM structure changed: no review containers".data,
            true, false, ⟨false, false, none⟩⟩),
         none, none⟩).outcome
      = RunOutcome.threw m errs := by
  constructor
  · decide
  · rintro ⟨m, errs, h⟩
    rw [show (scrape (fun _ => ⟨0, [], [], [], [], false⟩)
        ⟨"reviews.csv".data, 5⟩
        ⟨none, true,
         (fun _ => ⟨Except.error
            "DOM structure changed: no review containers".data,
            true, false, ⟨false, false, none⟩⟩),
         none, none⟩).outcome
      = RunOutcome.returned 0 0
          [pageErrorMsg 1 "DOM structure changed: no review containers".data]
      from by decide] at h
    exact RunOutcome.noConfusion h

/-- C2 (amended): **every** exception raised while processing a page —
whether or not records have been collected and whatever its cause —
is caught by the page-level `catch`: the page is skipped, the message
`Error processing page <n>: <m>` is recorded, the loop stops
gracefully (as if `hasNextPage = false`) preserving all records
collected so far, and a run with working navigation and final export
always returns normally, never propagating a page error. -/
theorem c2_page_error_graceful (tf : RawReview → TransformedReview)
    (cfg : OrchestratorConfig) (env : ScrapeEnv) :
    (∀ (f cp : Nat) seen acc pp errors cks m,
      (env.pages cp).extract = Except.error m → cp ≤ cfg.maxPages →
      scrapeLoop tf cfg env.pages (f + 1) cp true seen acc pp errors cks
        = ⟨acc, pp, errors ++ [pageErrorMsg cp m], cks, seen⟩)
  ∧ (env.initThrow = none → env.navOk = true → env.finalExportThrow = none →
      ∃ n p errs, (scrape tf cfg env).outcome = RunOutcome.returned n p errs) := by
  constructor
  · intro f cp seen acc pp errors cks m hex hle
    exact scrapeLoop_err tf cfg env.pages f cp true seen acc pp errors cks m
      ⟨rfl, hle⟩ hex
  · intro h1 h2 h3
    refine ⟨(loopOf tf cfg env).reviews.length,
      (loopOf tf cfg env).pagesProcessed, (loopOf tf cfg env).errors, ?_⟩
    simp [scrape, h1, h2, h3, loopOf]

/-- Witness for `c2_page_error_graceful`: a concrete first-page
failure is recorded and the run still returns. -/
theorem c2_page_error_graceful_witness :
    scrapeLoop (fun _ => ⟨0, [], [], [], [], false⟩) ⟨"reviews.csv".data, 5⟩
        (fun _ => ⟨Except.error "boom".data, true, false,
          ⟨false, false, none⟩⟩) 1 1 true [] [] 0 [] []
      = ⟨[], 0, [pageErrorMsg 1 "boom".data], [], []⟩
  ∧ ∃ n p errs,
      (scrape (fun _ => ⟨0, [], [], [], [], false⟩) ⟨"reviews.csv".data, 5⟩
        ⟨none, true, (fun _ => ⟨Except.error "boom".data, true, false,
          ⟨false, false, none⟩⟩), none, none⟩).outcome
      = RunOutcome.returned n p errs :=
  ⟨(c2_page_error_graceful (fun _ => ⟨0, [], [], [], [], false⟩)
      ⟨"reviews.csv".data, 5⟩
      ⟨none, true, (fun _ => ⟨Except.error "boom".data, true, false,
        ⟨false, false, none⟩⟩), none, none⟩).1
     0 1 [] [] 0 [] [] "boom".data rfl (by decide),
   (c2_page_error_graceful (fun _ => ⟨0, [], [], [], [], false⟩)
      ⟨"reviews.csv".data, 5⟩
      ⟨none, true, (fun _ => ⟨Except.error "boom".data, true, false,
        ⟨false, false, none⟩⟩), none, none⟩).2 rfl rfl rfl⟩


/-- C1 (counterexample): an abort with zero accumulated records — here
a failed navigation to the seed URL — re-raises the error **without
any export attempt**: the trace shows no call to the primary output
sink, contradicting "both termination paths invoke an export …
including when zero records have been accumulated". -/
theorem c1_abort_no_export_counterexample :
    (scrape (fun _ => ⟨0, [], [], [], [], false⟩) ⟨"reviews.csv".data, 5⟩
        ⟨none, false,
         (fun _ => ⟨Except.ok [], true, false, ⟨false, false, none⟩⟩),
         none, none⟩).exports = []
  ∧ (scrape (fun _ => ⟨0, [], [], [], [], false⟩) ⟨"reviews.csv".data, 5⟩
        ⟨none, false,
         (fun _ => ⟨Except.ok [], true, false, ⟨false, false, none⟩⟩),
         none, none⟩).outcome
      = RunOutcome.threw navFailMsg [navFailMsg] :=
  ⟨by decide, by decide⟩

/-- C1 (amended): normal completion always exports the accumulator to
the primary sink, even with zero records.  On abort, the behaviour
depends on the state: an initialization/navigation failure (zero
records by construction) re-raises with no export attempt; a final
export failure with zero collected records re-raises after just that
failed attempt; with at least one record, a rescue export is
attempted — if it succeeds the originating error is **not** re-raised
(the run returns normally), and only if it also fails is the error
re-raised. -/
theorem c1_finalization (tf : RawReview → TransformedReview)
    (cfg : OrchestratorConfig) (env : ScrapeEnv) :
    (env.initThrow = none → env.navOk = true → env.finalExportThrow = none →
      scrape tf cfg env
        = ⟨[⟨cfg.outputFilename, (loopOf tf cfg env).reviews, true⟩],
           (loopOf tf cfg env).checkpoints,
           RunOutcome.returned (loopOf tf cfg env).reviews.length
             (loopOf tf cfg env).pagesProcessed (loopOf tf cfg env).errors⟩)
  ∧ (∀ m, env.initThrow = some m →
      scrape tf cfg env = ⟨[], [], RunOutcome.threw m [m]⟩)
  ∧ (env.initThrow = none → env.navOk = false →
      scrape tf cfg env = ⟨[], [], RunOutcome.threw navFailMsg [navFailMsg]⟩)
  ∧ (∀ m, env.initThrow = none → env.navOk = true →
      env.finalExportThrow = some m →
      (loopOf tf cfg env).reviews.length = 0 →
      scrape tf cfg env
        = ⟨[⟨cfg.outputFilename, (loopOf tf cfg env).reviews, false⟩],
           (loopOf tf cfg env).checkpoints,
           RunOutcome.threw m ((loopOf tf cfg env).errors ++ [m])⟩)
  ∧ (∀ m, env.initThrow = none → env.navOk = true →
      env.finalExportThrow = some m →
      0 < (loopOf tf cfg env).reviews.length →
      env.rescueExportThrow = none →
      scrape tf cfg env
        = ⟨[⟨cfg.outputFilename, (loopOf tf cfg env).reviews, false⟩,
            ⟨cfg.outputFilename, (loopOf tf cfg env).reviews, true⟩],
           (loopOf tf cfg env).checkpoints,
           RunOutcome.returned (loopOf tf cfg env).reviews.length
             (loopOf tf cfg env).pagesProcessed
             ((loopOf tf cfg env).errors ++ [m])⟩)
  ∧ (∀ m m2, env.initThrow = none → env.navOk = true →
      env.finalExportThrow = some m →
      0 < (loopOf tf cfg env).reviews.length →
      env.rescueExportThrow = some m2 →
      scrape tf cfg env
        = ⟨[⟨cfg.outputFilename, (loopOf tf cfg env).reviews, false⟩,
            ⟨cfg.outputFilename, (loopOf tf cfg env).reviews, false⟩],
           (loopOf tf cfg env).checkpoints,
           RunOutcome.threw m
             ((loopOf tf cfg env).errors
               ++ [m, "Export failed: ".data ++ m2])⟩) := by
  refine ⟨?_, ?_, ?_, ?_, ?_, ?_⟩
  · intro h1 h2 h3
    simp [scrape, h1, h2, h3, loopOf]
  · intro m h1
    simp [scrape, h1]
  · intro h1 h2
    simp [scrape, h1, h2]
  · intro m h1 h2 h3 hlen
    simp only [loopOf] at hlen
    simp [scrape, h1, h2, h3, loopOf, hlen]
  · intro m h1 h2 h3 hlen h4
    simp only [loopOf] at hlen
    simp [scrape, h1, h2, h3, h4, loopOf, hlen]
  · intro m m2 h1 h2 h3 hlen h4
    simp only [loopOf] at hlen
    simp [scrape, h1, h2, h3, h4, loopOf, hlen]

/-- Witness for `c1_finalization`: a zero-record happy-path run still
exports (one successful call with an empty record list), and a
nav-failure abort produces the bare re-raise. -/
theorem c1_finalization_witness :
    scrape (fun _ => ⟨0, [], [], [], [], false⟩) ⟨"reviews.csv".data, 3⟩
        ⟨none, true,
         (fun _ => ⟨Except.ok [], false, false, ⟨false, false, none⟩⟩),
         none, none⟩
      = ⟨[⟨"reviews.csv".data, [], true⟩], [], RunOutcome.returned 0 1 []⟩
  ∧ scrape (fun _ => ⟨0, [], [], [], [], false⟩) ⟨"reviews.csv".data, 3⟩
        ⟨none, false,
         (fun _ => ⟨Except.ok [], false, false, ⟨false, false, none⟩⟩),
         none, none⟩
      = ⟨[], [], RunOutcome.threw navFailMsg [navFailMsg]⟩ :=
  ⟨((c1_finalization (fun _ => ⟨0, [], [], [], [], false⟩)
      ⟨"reviews.csv".data, 3⟩
      ⟨none, true,
       (fun _ => ⟨Except.ok [], false, false, ⟨false, false, none⟩⟩),
       none, none⟩).1 rfl rfl rfl).trans (by decide),
   (c1_finalization (fun _ => ⟨0, [], [], [], [], false⟩)
      ⟨"reviews.csv".data, 3⟩
      ⟨none, false,
       (fun _ => ⟨Except.ok [], false, false, ⟨false, false, none⟩⟩),
       none, none⟩).2.2.1 rfl rfl⟩

end Scraper
